import Mathlib

/-!
Verification of the market-signals bot (`src/Bot.py`, `src/bot.py`) against its
natural-language specification.

The Python sources are shallowly embedded: pure computations become Lean
functions over `ℚ` (Python floats are modelled as rationals; the only float
literals involved, `1.5` and `0.01`, are exactly representable and all
comparisons in the source are order comparisons, so the boundary behaviour is
preserved), a Python value that may be `None` becomes an `Option`, a Python
expression that may raise an uncaught exception becomes an `Except Unit`
computation, and the module-level `last_price` dict becomes an explicit state
value threaded through the loop.  External providers (yfinance, requests,
OpenAI, feedparser) are out of scope per the spec and appear as fields of an
environment record giving their responses.
-/

namespace OnlyStocksBot

/-! ## Configuration constants (`Bot.py`, lines 22-26) -/

/-- Constant `OPTIONS_UNUSUAL_VOLUME_MULTIPLIER = 1.5` (`Bot.py` line 24). -/
def OPTIONS_UNUSUAL_VOLUME_MULTIPLIER : ℚ := 1.5

/-- Constant `MAX_OPTIONS_ALERTS = 5` (`Bot.py` line 25). -/
def MAX_OPTIONS_ALERTS : Nat := 5

/-- Constant `MAX_MESSAGES_PER_UPDATE = 10` (`Bot.py` line 26). -/
def MAX_MESSAGES_PER_UPDATE : Nat := 10

/-- List `FOREX_PAIRS` (`Bot.py` line 37). -/
def FOREX_PAIRS : List String :=
  ["EURUSD", "GBPUSD", "USDJPY", "AUDUSD", "USDCAD", "USDCHF", "NZDUSD"]

/-- List `COMMODITIES` (`Bot.py` line 38). -/
def COMMODITIES : List String := ["XAUUSD", "XAGUSD", "WTIUSD"]

/-! ## Option-chain data model (`Bot.py`, `get_options_data` / `check_unusual_volume`)

A pandas data-frame row of an option chain carries the columns the source
reads: `strike`, `volume`, `lastPrice`.  A missing traded volume (pandas
`NaN`) is modelled as `none`; every comparison or arithmetic operation
involving `NaN` is false in pandas/NumPy, which the `Option` model reproduces
below. -/

structure OptionRow where
  strike : ℚ
  volume : Option ℚ
  lastPrice : ℚ
  deriving DecidableEq, Repr

/-- One element of the list built by `get_options_data` (`Bot.py` lines 53-62):
an expiration together with the call rows and put rows of its chain. -/
structure OptionChain where
  expiration : String
  calls : List OptionRow
  puts : List OptionRow
  deriving DecidableEq, Repr

/-- One dict appended by `check_unusual_volume` (`Bot.py` lines 71-77).  The
source key `"type"` is a reserved word in Lean and is named `kind` here. -/
structure UnusualRecord where
  kind : String
  strike : ℚ
  volume : Option ℚ
  expiration : String
  lastPrice : ℚ
  deriving DecidableEq, Repr

/-- One dict appended by `get_sec_filings` (`Bot.py` lines 112-118). -/
structure Filing where
  title : String
  link : String
  deriving DecidableEq, Repr

/-- Column mean `df['volume'].mean()`: pandas skips `NaN` entries and returns the mean of
the remaining ones; it returns `NaN` (here `none`) when no entry remains
(empty side, or every volume missing). -/
def meanVolume (rows : List OptionRow) : Option ℚ :=
  let vs := rows.filterMap (fun r => r.volume)
  if vs = [] then none else some (vs.sum / (vs.length : ℚ))

/-- Assignment `avg_vol = df['volume'].mean() or 1` (`Bot.py` line 68).  Python `x or 1`
replaces `x` by `1` exactly when `x` is falsy; the float `0.0` is falsy but
`NaN` is truthy, so a zero mean becomes `1` while an undefined (`NaN`) mean is
kept as `NaN` (`none`). -/
def avg_vol (rows : List OptionRow) : Option ℚ :=
  match meanVolume rows with
  | none => none
  | some m => if m = 0 then some 1 else some m

/-- The row predicate of `df[df['volume'] > avg_vol * OPTIONS_UNUSUAL_VOLUME_MULTIPLIER]`
(`Bot.py` line 69): a comparison involving `NaN` (a missing volume, or a `NaN`
`avg_vol`) is false. -/
def isUnusual (a : Option ℚ) (r : OptionRow) : Bool :=
  match a, r.volume with
  | some m, some v => decide (m * OPTIONS_UNUSUAL_VOLUME_MULTIPLIER < v)
  | _, _ => false

/-- The dict literal appended for one flagged row (`Bot.py` lines 71-77). -/
def toRecord (expiration kind : String) (r : OptionRow) : UnusualRecord :=
  { kind := kind, strike := r.strike, volume := r.volume
    expiration := expiration, lastPrice := r.lastPrice }

/-- Function `check_unusual_volume(chains)` (`Bot.py` lines 64-78), translated
loop-for-loop: the outer `for chain in chains`, the inner
`for df, kind in [(calls, "CALL"), (puts, "PUT")]`, and the innermost
`for _, row in df_unusual.iterrows(): unusual.append(...)` each become a
`foldl` over the accumulated `unusual` list. -/
def check_unusual_volume (chains : List OptionChain) : List UnusualRecord :=
  chains.foldl
    (fun unusual chain =>
      [(chain.calls, "CALL"), (chain.puts, "PUT")].foldl
        (fun unusual dfkind =>
          let a := avg_vol dfkind.1
          let df_unusual := dfkind.1.filter (fun r => isUnusual a r)
          df_unusual.foldl
            (fun unusual row => unusual ++ [toRecord chain.expiration dfkind.2 row])
            unusual)
        unusual)
    []

/-- The flagged records of one side of one chain, written as an order-preserving
filter.  Used to state the characterisation of `check_unusual_volume`. -/
def sideUnusual (expiration kind : String) (rows : List OptionRow) : List UnusualRecord :=
  (rows.filter (fun r => isUnusual (avg_vol rows) r)).map (toRecord expiration kind)

/-- The per-side mean as the specification describes it (spec, 4.2): the
arithmetic mean traded volume of the side, with a zero or undefined mean
treated as `1`.  Written from the spec's words, to be compared with the
source's `avg_vol`. -/
def specSideMean (rows : List OptionRow) : ℚ :=
  match meanVolume rows with
  | none => 1
  | some m => if m = 0 then 1 else m

/-! ## Signal Loop data model (`Bot.py`, `auto_signals`)

The module-level dict `last_price` (`Bot.py` line 129) maps a ticker to the
stored price of its previous cycle.  The stored price itself can be Python
`None` (the source stores `info.get("regularMarketPrice")` unconditionally),
so an entry is an `Option ℚ` and the dict is a function returning `none` for
an absent key and `some v` for a present one. -/

def LastPrice : Type := String → Option (Option ℚ)

/-- Lookup `last_price.get(ticker, default)` (`Bot.py` line 140). -/
def dictGetD (st : LastPrice) (ticker : String) (default : Option ℚ) : Option ℚ :=
  match st ticker with
  | some v => v
  | none => default

/-- Store `last_price[ticker] = price` (`Bot.py` line 141). -/
def dictSet (st : LastPrice) (ticker : String) (price : Option ℚ) : LastPrice :=
  fun x => if x = ticker then some price else st x

/-- Python truthiness of a possibly-`None` float: `None` and `0.0` are falsy. -/
def truthy : Option ℚ → Bool
  | none => false
  | some x => decide (x ≠ 0)

/-- Expression `abs((price - last_p)/last_p) if last_p else 0` (`Bot.py` line 142).
When `last_p` is truthy it is a nonzero number; the subtraction and division
then raise `TypeError` (modelled `Except.error`) if `price` is `None`, and
otherwise produce the relative change.  When `last_p` is falsy the whole
conditional expression is `0`. -/
def price_change_of (price last_p : Option ℚ) : Except Unit ℚ :=
  if truthy last_p then
    match price, last_p with
    | some p, some lp => Except.ok |(p - lp) / lp|
    | _, _ => Except.error ()
  else
    Except.ok 0

/-- One formatted message of a cycle, with the data the corresponding source
f-string interpolates (`Bot.py` lines 135, 169, 179, 188).  The surrounding
literal text of each f-string carries no logic and is abstracted away. -/
inductive Msg where
  | header (now : String)
  | stock (ticker : String) (price volume : Option ℚ) (ai_msg : String)
      (unusual : List UnusualRecord) (news : List (String × String))
      (filings : List Filing)
  | forex (pair : String) (rate : ℚ) (ai_msg : String)
  | commodity (name : String) (rate : ℚ) (ai_msg : String)
  deriving DecidableEq, Repr

/-- The environment of external providers the loop calls.  Each field gives
the response of one out-of-scope provider (spec, 1 and 6):

* `get_stock_data` models `Bot.py` lines 46-51: the yfinance request may raise
  (`Except.error`, no internal `try`), and on success each of the two
  `info.get` fields may be absent (`none`).
* `get_options_data`, `get_news` have internal `try/except` fallbacks or an
  early return in the source, so they are total.
* `get_sec_filings` parses a feed with feedparser, which does not raise; total.
* `ai_signal_stock`, `ai_signal_forex`, `ai_signal_commodity`, `ai_signal_cmd`
  model `ai_signal(prompt)` (`Bot.py` lines 120-126, total: its `try/except`
  returns a placeholder on failure) applied to the respective prompt
  f-string, as a function of the data that f-string interpolates.
* `get_forex_rate`, `get_commodity_rate` have bare `except: return None`, so
  they are total and return an `Option`.
* `now` is the timestamp string of `Bot.py` line 134. -/
structure Env where
  ALL_STOCKS : List String
  now : String
  get_stock_data : String → Except Unit (Option ℚ × Option ℚ)
  get_options_data : String → List OptionChain
  get_news : String → List (String × String)
  get_sec_filings : String → List Filing
  ai_signal_stock : String → Option ℚ → Option ℚ → List UnusualRecord →
    List (String × String) → List Filing → String
  ai_signal_cmd : String → Option ℚ → Option ℚ → String
  get_forex_rate : String → Option ℚ
  get_commodity_rate : String → Option ℚ
  ai_signal_forex : String → ℚ → String
  ai_signal_commodity : String → ℚ → String

/-! ## The stocks section of one cycle (`Bot.py` lines 138-172) -/

/-- The body of `for ticker in ALL_STOCKS` (`Bot.py` lines 139-170) for one
ticker: fetch, read and update `last_price`, compute the relative change,
either skip (`continue`, result `none`) or gather the auxiliary context and
build the message (result `some msg`).  An uncaught exception in the fetch or
in the change computation propagates as `Except.error`. -/
def process_stock (env : Env) (ticker : String) (st : LastPrice) :
    Except Unit (LastPrice × Option Msg) :=
  match env.get_stock_data ticker with
  | Except.error e => Except.error e
  | Except.ok pv =>
    let price := pv.1
    let volume := pv.2
    let last_p := dictGetD st ticker price
    let st' := dictSet st ticker price
    match price_change_of price last_p with
    | Except.error e => Except.error e
    | Except.ok price_change =>
      if price_change < 0.01 then
        Except.ok (st', none)
      else
        let chains := env.get_options_data ticker
        let unusual := (check_unusual_volume chains).take MAX_OPTIONS_ALERTS
        let news_items := env.get_news ticker
        let filings := env.get_sec_filings ticker
        let ai_msg := env.ai_signal_stock ticker price volume unusual news_items filings
        Except.ok (st', some (Msg.stock ticker price volume ai_msg unusual news_items filings))

/-- The `for ticker in ALL_STOCKS` loop (`Bot.py` lines 138-172) over the given
ticker list, threading `last_price` and the accumulated `messages`.  After a
message is appended, `if len(messages) >= MAX_MESSAGES_PER_UPDATE: break`
ends the loop (`Bot.py` lines 171-172). -/
def stocks_loop (env : Env) :
    List String → LastPrice → List Msg → Except Unit (LastPrice × List Msg)
  | [], st, messages => Except.ok (st, messages)
  | ticker :: rest, st, messages =>
      match process_stock env ticker st with
      | Except.error e => Except.error e
      | Except.ok (st', none) => stocks_loop env rest st' messages
      | Except.ok (st', some msg) =>
          let messages' := messages ++ [msg]
          if MAX_MESSAGES_PER_UPDATE ≤ messages'.length then
            Except.ok (st', messages')
          else
            stocks_loop env rest st' messages'

/-- The same sweep without the message cap: every ticker is processed and every
qualifying message is collected.  This is the reference against which the
capped loop is compared ("the earliest qualifying instruments win"). -/
def stock_sweep (env : Env) :
    List String → LastPrice → Except Unit (LastPrice × List Msg)
  | [], st => Except.ok (st, [])
  | ticker :: rest, st =>
      match process_stock env ticker st with
      | Except.error e => Except.error e
      | Except.ok (st', mopt) =>
          match stock_sweep env rest st' with
          | Except.error e => Except.error e
          | Except.ok (st'', q) => Except.ok (st'', mopt.toList ++ q)

/-! ## The forex and commodities sections (`Bot.py` lines 174-190)

The two `for` loops have identical shape: look up a rate, and if it is truthy
(`if rate:` — `None` and `0.0` are falsy) append one message and break once
the cap is reached.  They are embedded as two instances of one loop. -/

/-- The message of `Bot.py` line 179. -/
def forex_msg (env : Env) (pair : String) (rate : ℚ) : Msg :=
  Msg.forex pair rate (env.ai_signal_forex pair rate)

/-- The message of `Bot.py` line 188. -/
def commodity_msg (env : Env) (name : String) (rate : ℚ) : Msg :=
  Msg.commodity name rate (env.ai_signal_commodity name rate)

/-- Loop `for pair in PAIRS: rate = get_rate(pair); if rate: append; maybe break`
(`Bot.py` lines 175-181 and 184-190). -/
def rate_loop (getRate : String → Option ℚ) (mkMsg : String → ℚ → Msg) :
    List String → List Msg → List Msg
  | [], messages => messages
  | pair :: rest, messages =>
      match getRate pair with
      | some rate =>
          if rate = 0 then rate_loop getRate mkMsg rest messages
          else
            let messages' := messages ++ [mkMsg pair rate]
            if MAX_MESSAGES_PER_UPDATE ≤ messages'.length then messages'
            else rate_loop getRate mkMsg rest messages'
      | none => rate_loop getRate mkMsg rest messages

/-- The instruments of one rate section that would qualify with no cap: the
pairs with a truthy rate, in configured order. -/
def rateQual (getRate : String → Option ℚ) (mkMsg : String → ℚ → Msg) :
    List String → List Msg :=
  List.filterMap (fun pair =>
    match getRate pair with
    | some rate => if rate = 0 then none else some (mkMsg pair rate)
    | none => none)

/-! ## One cycle of `auto_signals` (`Bot.py` lines 131-196) -/

/-- One iteration of the `while True` loop of `auto_signals`, minus the sleep:
build the header, run the three sections, and deliver `messages[:MAX_MESSAGES_PER_UPDATE]`
(`Bot.py` lines 193-194).  The result is the list of messages delivered to the
chat and the final `last_price` state; `Except.error` is an uncaught exception
that kills the cycle before anything is delivered. -/
def auto_signals_cycle (env : Env) (st : LastPrice) :
    Except Unit (List Msg × LastPrice) :=
  match stocks_loop env env.ALL_STOCKS st [Msg.header env.now] with
  | Except.error e => Except.error e
  | Except.ok (st', messages) =>
      let messages := rate_loop env.get_forex_rate (forex_msg env) FOREX_PAIRS messages
      let messages := rate_loop env.get_commodity_rate (commodity_msg env) COMMODITIES messages
      Except.ok (messages.take MAX_MESSAGES_PER_UPDATE, st')

/-- The delivered messages of a cycle, `none` when the cycle died on an
uncaught exception. -/
def sentOf : Except Unit (List Msg × LastPrice) → Option (List Msg)
  | Except.ok r => some r.1
  | Except.error _ => none

/-- The `last_price` entry of `ticker` after a cycle, `none` when the cycle
died on an uncaught exception. -/
def stateAt (r : Except Unit (List Msg × LastPrice)) (ticker : String) :
    Option (Option (Option ℚ)) :=
  match r with
  | Except.ok r => some (r.2 ticker)
  | Except.error _ => none

/-! ## Command handlers -/

/-- The reply of `stock_command` (`Bot.py` line 203) with the data its
f-string interpolates. -/
inductive Reply where
  | stockReply (ticker : String) (price volume : Option ℚ) (ai_msg : String)
  deriving DecidableEq, Repr

/-- Handler `stock_command` (`Bot.py` lines 199-203): `context.args[0]` raises
`IndexError` on an empty argument list (no guard in the source), modelled as
`Except.error`; otherwise the first argument is uppercased and handled. -/
def stock_command (env : Env) (args : List String) : Except Unit Reply :=
  match args with
  | [] => Except.error ()
  | a :: _ =>
      match env.get_stock_data a.toUpper with
      | Except.error e => Except.error e
      | Except.ok pv =>
          Except.ok (Reply.stockReply a.toUpper pv.1 pv.2
            (env.ai_signal_cmd a.toUpper pv.1 pv.2))

/-! ## The second draft, `src/bot.py` -/

/-- Stand-in for Python's `str()` rendering of a possibly-`None` number inside
an f-string. -/
def pyRepr (x : Option ℚ) : String :=
  match x with
  | none => "None"
  | some q => toString q.num ++ "/" ++ toString q.den

/-- External providers of `src/bot.py`:

* `regularMarketPrice` models `yf.Ticker(t).info.get("regularMarketPrice")`
  (`bot.py` line 41, no `try`, may raise);
* `options_summary` models the `try` block of `bot.py` lines 43-49: `none`
  when it raised (the handler substitutes `"No options data"`), otherwise the
  call and put volume sums;
* `responses_create` models `openai_client.responses.create(...)` applied to
  the prompt (`bot.py` line 54, no `try`, may raise). -/
structure DraftEnv where
  regularMarketPrice : String → Except Unit (Option ℚ)
  options_summary : String → Option (ℚ × ℚ)
  responses_create : String → Except Unit String

/-- Helper `ai_signal_for_stock` (`bot.py` lines 39-55). -/
def ai_signal_for_stock (denv : DraftEnv) (ticker : String) : Except Unit String :=
  match denv.regularMarketPrice ticker with
  | Except.error e => Except.error e
  | Except.ok price =>
      let unusual_activity :=
        match denv.options_summary ticker with
        | some s => "Calls: " ++ pyRepr (some s.1) ++ ", Puts: " ++ pyRepr (some s.2)
        | none => "No options data"
      match denv.responses_create
        ("Generate Buy/Sell/Hold signal for " ++ ticker ++ " at " ++ pyRepr price ++
          " USD.\nInclude confidence %, reasoning, and options flow summary: " ++
          unusual_activity) with
      | Except.error e => Except.error e
      | Except.ok text =>
          Except.ok (ticker ++ ": " ++ pyRepr price ++ "\nSignal: " ++ text)

/-- Handler `handle_stock` (`bot.py` lines 57-60):
`ticker = context.args[0].upper() if context.args else "AAPL"` — a missing
argument silently falls back to the default ticker.  The result is the reply
text, `Except.error` an unhandled exception (no reply). -/
def handle_stock (denv : DraftEnv) (args : List String) : Except Unit String :=
  let ticker :=
    match args with
    | [] => "AAPL"
    | a :: _ => a.toUpper
  ai_signal_for_stock denv ticker

/-! ## Concrete environments for witnesses and counterexamples -/

/-- An environment with no stocks and no truthy rates; the fields that matter
are overridden per scenario. -/
def baseEnv : Env where
  ALL_STOCKS := []
  now := "T"
  get_stock_data := fun _ => Except.ok (none, none)
  get_options_data := fun _ => []
  get_news := fun _ => []
  get_sec_filings := fun _ => []
  ai_signal_stock := fun _ _ _ _ _ _ => "AI"
  ai_signal_cmd := fun _ _ _ => "AI"
  get_forex_rate := fun _ => none
  get_commodity_rate := fun _ => none
  ai_signal_forex := fun _ _ => "AI"
  ai_signal_commodity := fun _ _ => "AI"

/-- A `last_price` dict with no entries. -/
def emptyState : LastPrice := fun _ => none

/-- Scenario for C1: one stock whose stored last price is `0` and whose
current fetched price is `5`. -/
def envC1 : Env :=
  { baseEnv with ALL_STOCKS := ["AAPL"], get_stock_data := fun _ => Except.ok (some 5, some 100) }

/-- Every ticker has the stored entry `0`. -/
def stateZero : LastPrice := fun _ => some (some 0)

/-- Scenario for C4: two stocks; the provider raises for `"A"` and answers for
`"B"` with a price far from its stored value. -/
def envC4 : Env :=
  { baseEnv with
      ALL_STOCKS := ["A", "B"]
      get_stock_data := fun t =>
        if t = "A" then Except.error () else Except.ok (some 5, some 5) }

/-- Every ticker has the stored entry `1`. -/
def stateOne : LastPrice := fun _ => some (some 1)

/-- Scenario for C5: one stock with stored price `100` and current price `101`
— a relative change of exactly the `0.01` threshold. -/
def envC5 : Env :=
  { baseEnv with ALL_STOCKS := ["AAPL"], get_stock_data := fun _ => Except.ok (some 101, some 1000) }

/-- Every ticker has the stored entry `100`. -/
def stateHundred : LastPrice := fun _ => some (some 100)

/-- Scenario for C6: ten stocks that all qualify (stored `100`, fetched `200`).
The ninth appended signal message makes `len(messages) = 10` and the loop
breaks, so `"S10"` is never processed. -/
def envC6 : Env :=
  { baseEnv with
      ALL_STOCKS := ["S1", "S2", "S3", "S4", "S5", "S6", "S7", "S8", "S9", "S10"]
      get_stock_data := fun _ => Except.ok (some 200, some 1) }

/-- A row whose traded volume is missing (pandas `NaN`). -/
def rowNoVolume : OptionRow := { strike := 50, volume := none, lastPrice := 2 }

/-- A small concrete option chain used to instantiate the scan theorems. -/
def chainW : OptionChain where
  expiration := "2026-01-16"
  calls := [{ strike := 100, volume := some 10, lastPrice := 3 },
            { strike := 110, volume := some 2, lastPrice := 1 }]
  puts := [{ strike := 90, volume := some 4, lastPrice := 2 }]

/-! The arithmetic operations of the `Rat` library are `@[irreducible]`, which
blocks `decide`/`rfl` evaluation of the embedded functions on concrete
rational inputs; restore their definitional transparency for this file. -/

attribute [local semireducible] Rat.add Rat.mul Rat.sub Rat.inv Rat.ofScientific

/-! ## Lemmas about the unusual-volume scan -/

/-- Appending one mapped element per iteration is `acc ++ l.map f`. -/
theorem foldl_append_map {α β : Type} (f : α → β) :
    ∀ (l : List α) (acc : List β),
      l.foldl (fun a x => a ++ [f x]) acc = acc ++ l.map f
  | [], acc => by simp
  | x :: l, acc => by
      rw [List.foldl_cons, foldl_append_map f l (acc ++ [f x])]
      simp

/-- Lemma: `check_unusual_volume` flattens to the per-chain, per-side flagged rows in
input order: calls then puts per chain, rows in data-frame order. -/
theorem check_unusual_volume_eq_bind :
    ∀ (chains : List OptionChain) (acc : List UnusualRecord),
      chains.foldl
        (fun unusual chain =>
          [(chain.calls, "CALL"), (chain.puts, "PUT")].foldl
            (fun unusual dfkind =>
              let a := avg_vol dfkind.1
              let df_unusual := dfkind.1.filter (fun r => isUnusual a r)
              df_unusual.foldl
                (fun unusual row => unusual ++ [toRecord chain.expiration dfkind.2 row])
                unusual)
            unusual)
        acc =
      acc ++ chains.flatMap (fun c =>
        sideUnusual c.expiration "CALL" c.calls ++ sideUnusual c.expiration "PUT" c.puts)
  | [], acc => by simp
  | c :: chains, acc => by
      rw [List.foldl_cons, check_unusual_volume_eq_bind chains]
      simp only [List.foldl_cons, List.foldl_nil, foldl_append_map]
      simp [sideUnusual, List.append_assoc]

/-- Lemma: `meanVolume rows = none` exactly when every volume of the side is missing. -/
theorem meanVolume_eq_none_iff (rows : List OptionRow) :
    meanVolume rows = none ↔ ∀ r ∈ rows, r.volume = none := by
  rw [show meanVolume rows =
      (if rows.filterMap (fun r => r.volume) = [] then none
       else some ((rows.filterMap (fun r => r.volume)).sum /
         ((rows.filterMap (fun r => r.volume)).length : ℚ))) from rfl]
  by_cases h : rows.filterMap (fun r => r.volume) = []
  · rw [if_pos h]
    simp only [eq_self_iff_true, true_iff]
    exact List.filterMap_eq_nil_iff.mp h
  · rw [if_neg h]
    simp only [reduceCtorEq, false_iff]
    exact fun hall => h (List.filterMap_eq_nil_iff.mpr hall)

/-- A `NaN` mean flags nothing. -/
theorem isUnusual_none (r : OptionRow) : isUnusual none r = false := by
  unfold isUnusual
  cases r.volume <;> rfl

/-- With a defined mean, the flag test is the strict volume comparison. -/
theorem isUnusual_some_some (m v : ℚ) (r : OptionRow) (h : r.volume = some v) :
    isUnusual (some m) r = decide (m * OPTIONS_UNUSUAL_VOLUME_MULTIPLIER < v) := by
  unfold isUnusual
  rw [h]

/-- The flag test of the source agrees, on the rows of the side, with the
spec's description: volume strictly above (treated mean × multiplier). -/
theorem isUnusual_iff_specSideMean (rows : List OptionRow) (r : OptionRow)
    (hr : r ∈ rows) :
    isUnusual (avg_vol rows) r = true ↔
      ∃ v, r.volume = some v ∧
        specSideMean rows * OPTIONS_UNUSUAL_VOLUME_MULTIPLIER < v := by
  unfold avg_vol specSideMean
  cases hm : meanVolume rows with
  | none =>
      have hnone : r.volume = none := (meanVolume_eq_none_iff rows).mp hm r hr
      unfold isUnusual
      rw [hnone]
      simp
  | some m =>
      by_cases h0 : m = 0
      · subst h0
        simp only [if_pos rfl]
        unfold isUnusual
        cases hv : r.volume with
        | none => simp
        | some v => simp [decide_eq_true_iff]
      · simp only [if_neg h0]
        unfold isUnusual
        cases hv : r.volume with
        | none => simp
        | some v => simp [decide_eq_true_iff]

/-! ## Claim theorems for the unusual-activity scan -/

/-- Claim C2: for every option-chain input, the scan's output is exactly, per
chain and per side (calls then puts), the rows whose traded volume strictly
exceeds the side's (treated) arithmetic mean volume times the configured
multiplier — so flagged rows exceed the threshold and unflagged rows do not —
kept in the input's relative order (a sublist of the input rows, stable, not
sorted); the function is pure, so repeated calls on identical input return
the same output (in this embedding that determinism is definitional, recorded
by the final reflexive conjunct). -/
theorem C2_check_unusual_volume (chains : List OptionChain) :
    check_unusual_volume chains =
      chains.flatMap (fun c =>
        sideUnusual c.expiration "CALL" c.calls ++
        sideUnusual c.expiration "PUT" c.puts) ∧
    (∀ expiration kind : String, ∀ rows : List OptionRow,
      (sideUnusual expiration kind rows).Sublist (rows.map (toRecord expiration kind))) ∧
    (∀ rows : List OptionRow, ∀ r ∈ rows,
      (isUnusual (avg_vol rows) r = true ↔
        ∃ v, r.volume = some v ∧
          specSideMean rows * OPTIONS_UNUSUAL_VOLUME_MULTIPLIER < v)) ∧
    check_unusual_volume chains = check_unusual_volume chains := by
  refine ⟨?_, ?_, ?_, rfl⟩
  · have h := check_unusual_volume_eq_bind chains []
    simpa [check_unusual_volume] using h
  · intro expiration kind rows
    exact List.Sublist.map (toRecord expiration kind) (List.filter_sublist rows)
  · exact fun rows r hr => isUnusual_iff_specSideMean rows r hr

/-- Witness for C2 at a concrete chain and a concrete row. -/
theorem C2_check_unusual_volume_witness :
    check_unusual_volume [chainW] =
      [chainW].flatMap (fun c =>
        sideUnusual c.expiration "CALL" c.calls ++
        sideUnusual c.expiration "PUT" c.puts) ∧
    rowNoVolume ∈ [rowNoVolume] ∧
    (isUnusual (avg_vol [rowNoVolume]) rowNoVolume = true ↔
      ∃ v, rowNoVolume.volume = some v ∧
        specSideMean [rowNoVolume] * OPTIONS_UNUSUAL_VOLUME_MULTIPLIER < v) :=
  ⟨(C2_check_unusual_volume [chainW]).1, by decide,
    (C2_check_unusual_volume [chainW]).2.2.1 [rowNoVolume] rowNoVolume (by decide)⟩

/-- Counterexample for C3: for a side whose rows all have a missing volume the
arithmetic mean is undefined, and the value used for the threshold comparison
is the undefined mean itself (Python's `NaN or 1` keeps `NaN`, since `NaN` is
truthy), not `1`. -/
theorem C3_counterexample :
    avg_vol [rowNoVolume] = none ∧ avg_vol [rowNoVolume] ≠ some 1 := by
  exact ⟨rfl, by decide⟩

/-- Claim C3 as amended: a side mean of zero is replaced by `1`; an undefined
mean (no rows, or every volume missing) is kept as `NaN` (`none`) — under
which every volume comparison is false — and in either degenerate case a
nonempty side never has all of its rows flagged. -/
theorem C3_mean_fallback (rows : List OptionRow) :
    (meanVolume rows = some 0 → avg_vol rows = some 1) ∧
    (meanVolume rows = none → avg_vol rows = none) ∧
    (rows ≠ [] → meanVolume rows = some 0 ∨ meanVolume rows = none →
      ∃ r ∈ rows, isUnusual (avg_vol rows) r = false) := by
  refine ⟨?_, ?_, ?_⟩
  · intro h
    unfold avg_vol
    rw [h]
    simp
  · intro h
    unfold avg_vol
    rw [h]
  · intro hne hcase
    rcases hcase with h0 | hnone
    · by_contra hall
      push_neg at hall
      have havg : avg_vol rows = some 1 := by
        unfold avg_vol
        rw [h0]
        simp
      have hposall : ∀ x ∈ rows.filterMap (fun r => r.volume), (0 : ℚ) < x := by
        intro x hx
        obtain ⟨r, hr, hvol⟩ := List.mem_filterMap.mp hx
        have hflag : isUnusual (avg_vol rows) r = true := by
          have hb := hall r hr
          revert hb
          cases isUnusual (avg_vol rows) r <;> simp
        rw [havg, isUnusual_some_some 1 x r hvol, decide_eq_true_iff] at hflag
        have hmul : (0 : ℚ) < 1 * OPTIONS_UNUSUAL_VOLUME_MULTIPLIER := by
          norm_num [OPTIONS_UNUSUAL_VOLUME_MULTIPLIER]
        exact lt_trans hmul hflag
      have hvs : rows.filterMap (fun r => r.volume) ≠ [] ∧
          (rows.filterMap (fun r => r.volume)).sum = 0 := by
        have h := h0
        rw [show meanVolume rows =
            (if rows.filterMap (fun r => r.volume) = [] then none
             else some ((rows.filterMap (fun r => r.volume)).sum /
               ((rows.filterMap (fun r => r.volume)).length : ℚ))) from rfl] at h
        by_cases hh : rows.filterMap (fun r => r.volume) = []
        · rw [if_pos hh] at h
          cases h
        · rw [if_neg hh] at h
          injection h with h
          refine ⟨hh, ?_⟩
          rcases div_eq_zero_iff.mp h with hs | hl
          · exact hs
          · exfalso
            have hlen : (rows.filterMap (fun r => r.volume)).length = 0 := by
              exact_mod_cast hl
            exact hh (List.length_eq_zero.mp hlen)
      have hpos := List.sum_pos _ hposall hvs.1
      rw [hvs.2] at hpos
      exact lt_irrefl 0 hpos
    · obtain ⟨r, hr⟩ := List.exists_mem_of_ne_nil rows hne
      refine ⟨r, hr, ?_⟩
      have havg : avg_vol rows = none := by
        unfold avg_vol
        rw [hnone]
      rw [havg]
      exact isUnusual_none r

/-- Witness for C3 as amended, at the all-volumes-missing side. -/
theorem C3_mean_fallback_witness :
    meanVolume [rowNoVolume] = none ∧ [rowNoVolume] ≠ ([] : List OptionRow) ∧
    avg_vol [rowNoVolume] = none ∧
    ∃ r ∈ [rowNoVolume], isUnusual (avg_vol [rowNoVolume]) r = false :=
  ⟨rfl, by decide, (C3_mean_fallback [rowNoVolume]).2.1 rfl,
    (C3_mean_fallback [rowNoVolume]).2.2 (by decide) (Or.inr rfl)⟩

/-! ## Lemmas about the stocks pass -/

/-- The message built for a reported stock (`Bot.py` line 169), as a function
of the environment. -/
def stockMsg (env : Env) (ticker : String) (price volume : Option ℚ) : Msg :=
  Msg.stock ticker price volume
    (env.ai_signal_stock ticker price volume
      ((check_unusual_volume (env.get_options_data ticker)).take MAX_OPTIONS_ALERTS)
      (env.get_news ticker) (env.get_sec_filings ticker))
    ((check_unusual_volume (env.get_options_data ticker)).take MAX_OPTIONS_ALERTS)
    (env.get_news ticker) (env.get_sec_filings ticker)

/-- Characterisation of one stock step when the fetch succeeds and the change
expression evaluates: the entry is set to the fetched price and the message is
produced exactly when the change is not below the threshold. -/
theorem process_stock_eq (env : Env) (ticker : String) (st : LastPrice)
    (price volume : Option ℚ) (c : ℚ)
    (hfetch : env.get_stock_data ticker = Except.ok (price, volume))
    (hchange : price_change_of price (dictGetD st ticker price) = Except.ok c) :
    process_stock env ticker st =
      if c < 0.01 then Except.ok (dictSet st ticker price, none)
      else Except.ok (dictSet st ticker price, some (stockMsg env ticker price volume)) := by
  unfold process_stock
  simp only [hfetch, hchange, stockMsg]

/-- No baseline change: comparing a fetched value against itself always
evaluates to relative change `0` (also when the value is `None` or `0`). -/
theorem price_change_of_self (price : Option ℚ) :
    price_change_of price price = Except.ok 0 := by
  unfold price_change_of
  cases price with
  | none => rfl
  | some p =>
      by_cases hp : p = 0
      · subst hp
        rfl
      · have ht : truthy (some p) = true := by simp [truthy, hp]
        rw [if_pos ht]
        simp [sub_self, zero_div, abs_zero]

/-! ## Claims about single-instrument evaluation (C1, C5, C9) -/

/-- Counterexample for C1: with a stored last price of `0` and current price
`5`, the cycle delivers only the header — the instrument is silently skipped,
not unconditionally reported as the claim states. -/
theorem C1_counterexample :
    sentOf (auto_signals_cycle envC1 stateZero) = some [Msg.header "T"] := by
  decide

/-- Claim C1 as amended: for a last-observed value of `0` and a nonzero
current value, the guard does avoid the division (the change expression
evaluates to `0`, no error), but the instrument is then silently skipped by
the `< 0.01` test rather than reported; its entry is still updated to the
current price. -/
theorem C1_zero_baseline_skipped (env : Env) (ticker : String) (st : LastPrice)
    (p : ℚ) (volume : Option ℚ)
    (hst : st ticker = some (some 0))
    (hfetch : env.get_stock_data ticker = Except.ok (some p, volume))
    (_hnz : p ≠ 0) :
    price_change_of (some p) (dictGetD st ticker (some p)) = Except.ok 0 ∧
    process_stock env ticker st = Except.ok (dictSet st ticker (some p), none) := by
  have hlast : dictGetD st ticker (some p) = some 0 := by
    unfold dictGetD
    rw [hst]
  have hchange : price_change_of (some p) (dictGetD st ticker (some p)) = Except.ok 0 := by
    rw [hlast]
    rfl
  refine ⟨hchange, ?_⟩
  rw [process_stock_eq env ticker st (some p) volume 0 hfetch hchange,
    if_pos (by norm_num : (0 : ℚ) < 0.01)]

/-- Witness for C1 as amended at the concrete scenario of the counterexample. -/
theorem C1_zero_baseline_skipped_witness :
    stateZero "AAPL" = some (some 0) ∧
    envC1.get_stock_data "AAPL" = Except.ok (some 5, some 100) ∧ (5 : ℚ) ≠ 0 ∧
    (price_change_of (some 5) (dictGetD stateZero "AAPL" (some 5)) = Except.ok 0 ∧
     process_stock envC1 "AAPL" stateZero =
       Except.ok (dictSet stateZero "AAPL" (some 5), none)) :=
  ⟨rfl, rfl, by decide,
    C1_zero_baseline_skipped envC1 "AAPL" stateZero 5 (some 100) rfl rfl (by decide)⟩

/-- Counterexample for C5: with `lastObserved = 100`, `current = 101` the
relative change equals the `0.01` threshold exactly, and the instrument IS
reported (the skip test is the strict `price_change < 0.01`), contradicting
the claim that the boundary case is not reported. -/
theorem C5_counterexample :
    sentOf (auto_signals_cycle envC5 stateHundred) =
      some [Msg.header "T",
        Msg.stock "AAPL" (some 101) (some 1000) "AI" [] [] []] := by
  decide

/-- Claim C5 as amended: with a truthy stored value `lp` and fetched price
`p`, the instrument is reported exactly when the relative change is at least
the threshold (boundary included: `lastObserved=100, current=101` is
reported), and skipped exactly when the change is strictly below it. -/
theorem C5_threshold_gate (env : Env) (ticker : String) (st : LastPrice)
    (lp p : ℚ) (volume : Option ℚ)
    (hst : st ticker = some (some lp))
    (hlp : lp ≠ 0)
    (hfetch : env.get_stock_data ticker = Except.ok (some p, volume)) :
    (process_stock env ticker st =
        Except.ok (dictSet st ticker (some p),
          some (stockMsg env ticker (some p) volume)) ↔
      0.01 ≤ |(p - lp) / lp|) ∧
    (process_stock env ticker st = Except.ok (dictSet st ticker (some p), none) ↔
      |(p - lp) / lp| < 0.01) := by
  have hlast : dictGetD st ticker (some p) = some lp := by
    unfold dictGetD
    rw [hst]
  have ht : truthy (some lp) = true := by simp [truthy, hlp]
  have hchange : price_change_of (some p) (dictGetD st ticker (some p)) =
      Except.ok |(p - lp) / lp| := by
    rw [hlast]
    unfold price_change_of
    rw [if_pos ht]
  rw [process_stock_eq env ticker st (some p) volume (|(p - lp) / lp|) hfetch hchange]
  by_cases hc : |(p - lp) / lp| < 0.01
  · rw [if_pos hc]
    refine ⟨⟨fun h => ?_, fun h => ?_⟩, ⟨fun _ => hc, fun _ => rfl⟩⟩
    · exfalso
      simp at h
    · exact absurd hc (not_lt.mpr h)
  · rw [if_neg hc]
    refine ⟨⟨fun _ => not_lt.mp hc, fun _ => rfl⟩, ⟨fun h => ?_, fun h => ?_⟩⟩
    · exfalso
      simp at h
    · exact absurd h hc

/-- Witness for C5 as amended at the boundary scenario `100 → 101`. -/
theorem C5_threshold_gate_witness :
    stateHundred "AAPL" = some (some 100) ∧ (100 : ℚ) ≠ 0 ∧
    envC5.get_stock_data "AAPL" = Except.ok (some 101, some 1000) ∧
    ((process_stock envC5 "AAPL" stateHundred =
        Except.ok (dictSet stateHundred "AAPL" (some 101),
          some (stockMsg envC5 "AAPL" (some 101) (some 1000))) ↔
      (0.01 : ℚ) ≤ |((101 : ℚ) - 100) / 100|) ∧
     (process_stock envC5 "AAPL" stateHundred =
        Except.ok (dictSet stateHundred "AAPL" (some 101), none) ↔
      |((101 : ℚ) - 100) / 100| < 0.01)) :=
  ⟨rfl, by decide, rfl,
    C5_threshold_gate envC5 "AAPL" stateHundred 100 101 (some 1000) rfl (by decide) rfl⟩

/-- Claim C9: an instrument with no prior `last_price` entry has its baseline
seeded to the fetched value (`last_price.get(ticker, price)` defaults to the
price just fetched), the computed relative change is `0`, and the instrument
is not reported in that cycle; the entry is set to the fetched value. -/
theorem C9_first_sight_seeded (env : Env) (ticker : String) (st : LastPrice)
    (price volume : Option ℚ)
    (hnew : st ticker = none)
    (hfetch : env.get_stock_data ticker = Except.ok (price, volume)) :
    price_change_of price (dictGetD st ticker price) = Except.ok 0 ∧
    process_stock env ticker st = Except.ok (dictSet st ticker price, none) := by
  have hlast : dictGetD st ticker price = price := by
    unfold dictGetD
    rw [hnew]
  have hchange : price_change_of price (dictGetD st ticker price) = Except.ok 0 := by
    rw [hlast]
    exact price_change_of_self price
  refine ⟨hchange, ?_⟩
  rw [process_stock_eq env ticker st price volume 0 hfetch hchange,
    if_pos (by norm_num : (0 : ℚ) < 0.01)]

/-- Witness for C9: a first-seen ticker in the empty state. -/
theorem C9_first_sight_seeded_witness :
    emptyState "AAPL" = none ∧
    baseEnv.get_stock_data "AAPL" = Except.ok (none, none) ∧
    (price_change_of none (dictGetD emptyState "AAPL" none) = Except.ok 0 ∧
     process_stock baseEnv "AAPL" emptyState =
       Except.ok (dictSet emptyState "AAPL" none, none)) :=
  ⟨rfl, rfl, C9_first_sight_seeded baseEnv "AAPL" emptyState none none rfl rfl⟩

/-! ## Claims about failure handling in the stocks pass (C4) -/

/-- Counterexample for C4: a provider error for `"A"`, the first of two
configured instruments, aborts the whole cycle — nothing is delivered, and
`"B"` (whose change `|5 − 1|/1` would have qualified) is never evaluated. -/
theorem C4_counterexample :
    sentOf (auto_signals_cycle envC4 stateOne) = none := by
  decide

/-- Claim C4 as amended: a missing-field failure (the fetch succeeds but the
price field is absent) for an instrument whose stored entry is absent or
falsy does not abort the cycle — the instrument is skipped with no message,
its entry is set to the absent value, and the loop continues with the
remaining instruments — but a raised provider error (`get_stock_data` has no
`try/except`) propagates and aborts the entire stocks pass. -/
theorem C4_provider_failure (env : Env) (ticker : String) (st : LastPrice)
    (volume : Option ℚ) (rest : List String) (messages : List Msg) :
    (env.get_stock_data ticker = Except.ok (none, volume) →
      truthy (dictGetD st ticker none) = false →
      stocks_loop env (ticker :: rest) st messages =
        stocks_loop env rest (dictSet st ticker none) messages) ∧
    (env.get_stock_data ticker = Except.error () →
      stocks_loop env (ticker :: rest) st messages = Except.error ()) := by
  constructor
  · intro hfetch hfalsy
    have hchange : price_change_of none (dictGetD st ticker none) = Except.ok 0 := by
      unfold price_change_of
      rw [hfalsy]
      simp
    have hps := process_stock_eq env ticker st none volume 0 hfetch hchange
    rw [if_pos (by norm_num : (0 : ℚ) < 0.01)] at hps
    rw [stocks_loop, hps]
  · intro hfetch
    have hps : process_stock env ticker st = Except.error () := by
      unfold process_stock
      rw [hfetch]
    rw [stocks_loop, hps]

/-- Witness for C4 as amended: the skip half at a fetch with a missing price
field and an empty state, and the abort half at the counterexample scenario. -/
theorem C4_provider_failure_witness :
    baseEnv.get_stock_data "A" = Except.ok (none, none) ∧
    truthy (dictGetD emptyState "A" none) = false ∧
    stocks_loop baseEnv ["A"] emptyState [] =
      stocks_loop baseEnv [] (dictSet emptyState "A" none) [] ∧
    envC4.get_stock_data "A" = Except.error () ∧
    stocks_loop envC4 ["A", "B"] stateOne [Msg.header "T"] = Except.error () :=
  ⟨rfl, rfl, (C4_provider_failure baseEnv "A" emptyState none [] []).1 rfl rfl,
    rfl, (C4_provider_failure envC4 "A" stateOne none ["B"] [Msg.header "T"]).2 rfl⟩

/-! ## Claims about the `last_price` update discipline (C6) -/

/-- Counterexample for C6: with ten qualifying instruments the ninth appended
signal message reaches the cap and the loop `break`s, so the tenth instrument
is never processed: the cycle succeeds, the provider reports price `200` for
`"S10"`, yet its `last_price` entry still holds the stale `100` afterwards. -/
theorem C6_counterexample :
    envC6.get_stock_data "S10" = Except.ok (some 200, some 1) ∧
    "S10" ∈ envC6.ALL_STOCKS ∧
    stateAt (auto_signals_cycle envC6 stateHundred) "S10" = some (some (some 100)) := by
  refine ⟨rfl, by decide, by decide⟩

/-- Claim C6 as amended: every instrument the stocks pass actually processes
has its `last_price` entry set to the freshly fetched price, reported or not;
but once the message cap `break`s the pass, the remaining configured
instruments are not processed at all (appending them to the ticker list does
not change the result), so their entries keep the previous cycle's values. -/
theorem C6_last_price_update :
    (∀ (env : Env) (ticker : String) (st : LastPrice) (st' : LastPrice)
        (mopt : Option Msg),
      process_stock env ticker st = Except.ok (st', mopt) →
      ∃ price volume, env.get_stock_data ticker = Except.ok (price, volume) ∧
        st' = dictSet st ticker price) ∧
    (∀ (env : Env) (l₁ l₂ : List String) (st : LastPrice) (messages : List Msg)
        (st₁ : LastPrice) (out : List Msg),
      messages.length < MAX_MESSAGES_PER_UPDATE →
      stocks_loop env l₁ st messages = Except.ok (st₁, out) →
      MAX_MESSAGES_PER_UPDATE ≤ out.length →
      stocks_loop env (l₁ ++ l₂) st messages = Except.ok (st₁, out)) := by
  constructor
  · intro env ticker st st' mopt h
    cases hf : env.get_stock_data ticker with
    | error e =>
        have herr : process_stock env ticker st = Except.error e := by
          unfold process_stock
          rw [hf]
        rw [herr] at h
        cases h
    | ok pv =>
        obtain ⟨price, volume⟩ := pv
        cases hc : price_change_of price (dictGetD st ticker price) with
        | error e =>
            have herr : process_stock env ticker st = Except.error e := by
              unfold process_stock
              simp only [hf, hc]
            rw [herr] at h
            cases h
        | ok c =>
            have hps := process_stock_eq env ticker st price volume c hf hc
            refine ⟨price, volume, rfl, ?_⟩
            by_cases hlt : c < 0.01
            · rw [if_pos hlt] at hps
              rw [hps] at h
              cases h
              rfl
            · rw [if_neg hlt] at hps
              rw [hps] at h
              cases h
              rfl
  · intro env l₁
    induction l₁ with
    | nil =>
        intro l₂ st messages st₁ out hlt hloop hcap
        rw [stocks_loop] at hloop
        cases hloop
        exact absurd hcap (not_le.mpr hlt)
    | cons t rest ih =>
        intro l₂ st messages st₁ out hlt hloop hcap
        rw [stocks_loop] at hloop
        rw [List.cons_append, stocks_loop]
        cases hp : process_stock env t st with
        | error e =>
            rw [hp] at hloop
            cases hloop
        | ok r =>
            obtain ⟨st', mopt⟩ := r
            rw [hp] at hloop
            cases mopt with
            | none =>
                dsimp only at hloop ⊢
                exact ih l₂ st' messages st₁ out hlt hloop hcap
            | some msg =>
                dsimp only at hloop ⊢
                by_cases hcap' : MAX_MESSAGES_PER_UPDATE ≤ (messages ++ [msg]).length
                · simp only [if_pos hcap'] at hloop ⊢
                  exact hloop
                · simp only [if_neg hcap'] at hloop ⊢
                  exact ih l₂ st' (messages ++ [msg]) st₁ out (not_le.mp hcap') hloop hcap

/-! ## Lemmas for the message cap and batch shape (C7, C10) -/

/-- Taking `n` of an append stays within the left list when it is long enough. -/
theorem take_append_left {α : Type} (n : Nat) (l₁ l₂ : List α)
    (h : n ≤ l₁.length) : (l₁ ++ l₂).take n = l₁.take n := by
  rw [List.take_append_eq_append_take, Nat.sub_eq_zero_of_le h]
  simp

/-- Lists with equal `n`-prefixes keep equal `n`-prefixes under a common
appended suffix. -/
theorem take_append_congr {α : Type} (n : Nat) (a b c : List α)
    (h : a.take n = b.take n) : (a ++ c).take n = (b ++ c).take n := by
  have hmin : min n a.length = min n b.length := by
    have hlen := congrArg List.length h
    simpa [List.length_take] using hlen
  have hsub : n - a.length = n - b.length := by
    rcases Nat.le_total n a.length with h1 | h1
    · have hb : min n b.length = n := by
        rw [← hmin, min_eq_left h1]
      have h2 : n ≤ b.length := by
        rcases Nat.le_total n b.length with hh | hh
        · exact hh
        · rw [min_eq_right hh] at hb
          exact Nat.le_of_eq hb.symm
      rw [Nat.sub_eq_zero_of_le h1, Nat.sub_eq_zero_of_le h2]
    · rw [min_eq_right h1] at hmin
      rcases Nat.le_total n b.length with hh | hh
      · rw [min_eq_left hh] at hmin
        rw [hmin, Nat.sub_self, Nat.sub_eq_zero_of_le hh]
      · rw [min_eq_right hh] at hmin
        rw [hmin]
  rw [List.take_append_eq_append_take, List.take_append_eq_append_take, h, hsub]

/-- The capped stocks pass only ever appends to the accumulated messages. -/
theorem stocks_loop_append_only (env : Env) :
    ∀ (l : List String) (st : LastPrice) (messages : List Msg)
      (st₂ : LastPrice) (out : List Msg),
      stocks_loop env l st messages = Except.ok (st₂, out) →
      ∃ extra, out = messages ++ extra
  | [], st, messages, st₂, out, h => by
      rw [stocks_loop] at h
      cases h
      exact ⟨[], by simp⟩
  | t :: rest, st, messages, st₂, out, h => by
      rw [stocks_loop] at h
      cases hp : process_stock env t st with
      | error e =>
          rw [hp] at h
          cases h
      | ok r =>
          obtain ⟨st', mopt⟩ := r
          rw [hp] at h
          cases mopt with
          | none =>
              dsimp only at h
              exact stocks_loop_append_only env rest st' messages st₂ out h
          | some msg =>
              dsimp only at h
              by_cases hcap : MAX_MESSAGES_PER_UPDATE ≤ (messages ++ [msg]).length
              · rw [if_pos hcap] at h
                cases h
                exact ⟨[msg], rfl⟩
              · rw [if_neg hcap] at h
                obtain ⟨extra, hx⟩ :=
                  stocks_loop_append_only env rest st' (messages ++ [msg]) st₂ out h
                exact ⟨[msg] ++ extra, by rw [hx]; simp⟩

/-- A rate section only ever appends to the accumulated messages. -/
theorem rate_loop_append_only (getRate : String → Option ℚ) (mkMsg : String → ℚ → Msg) :
    ∀ (pairs : List String) (messages : List Msg),
      ∃ extra, rate_loop getRate mkMsg pairs messages = messages ++ extra
  | [], messages => ⟨[], by rw [rate_loop]; simp⟩
  | pair :: rest, messages => by
      rw [rate_loop]
      cases hr : getRate pair with
      | none => exact rate_loop_append_only getRate mkMsg rest messages
      | some rate =>
          dsimp only
          by_cases h0 : rate = 0
          · rw [if_pos h0]
            exact rate_loop_append_only getRate mkMsg rest messages
          · rw [if_neg h0]
            by_cases hcap :
                MAX_MESSAGES_PER_UPDATE ≤ (messages ++ [mkMsg pair rate]).length
            · rw [if_pos hcap]
              exact ⟨[mkMsg pair rate], rfl⟩
            · rw [if_neg hcap]
              obtain ⟨extra, hx⟩ :=
                rate_loop_append_only getRate mkMsg rest (messages ++ [mkMsg pair rate])
              exact ⟨[mkMsg pair rate] ++ extra, by rw [hx]; simp⟩

/-- Modulo the final `[:MAX_MESSAGES_PER_UPDATE]` slice, a capped rate section
behaves like appending all of the section's qualifying messages. -/
theorem rate_loop_take (getRate : String → Option ℚ) (mkMsg : String → ℚ → Msg) :
    ∀ (pairs : List String) (messages : List Msg),
      (rate_loop getRate mkMsg pairs messages).take MAX_MESSAGES_PER_UPDATE =
        (messages ++ rateQual getRate mkMsg pairs).take MAX_MESSAGES_PER_UPDATE
  | [], messages => by
      rw [rate_loop]
      simp [rateQual]
  | pair :: rest, messages => by
      rw [rate_loop]
      cases hr : getRate pair with
      | none =>
          rw [rate_loop_take getRate mkMsg rest messages]
          simp [rateQual, List.filterMap_cons, hr]
      | some rate =>
          dsimp only
          by_cases h0 : rate = 0
          · rw [if_pos h0]
            rw [rate_loop_take getRate mkMsg rest messages]
            simp [rateQual, List.filterMap_cons, hr, h0]
          · rw [if_neg h0]
            have hqual : rateQual getRate mkMsg (pair :: rest) =
                mkMsg pair rate :: rateQual getRate mkMsg rest := by
              simp [rateQual, List.filterMap_cons, hr, h0]
            by_cases hcap :
                MAX_MESSAGES_PER_UPDATE ≤ (messages ++ [mkMsg pair rate]).length
            · rw [if_pos hcap, hqual]
              have hassoc : messages ++ (mkMsg pair rate :: rateQual getRate mkMsg rest) =
                  (messages ++ [mkMsg pair rate]) ++ rateQual getRate mkMsg rest := by
                simp
              rw [hassoc, take_append_left MAX_MESSAGES_PER_UPDATE _ _ hcap]
            · rw [if_neg hcap]
              rw [rate_loop_take getRate mkMsg rest (messages ++ [mkMsg pair rate]), hqual]
              simp [List.append_assoc]

/-- Under succeeding fetches with a present price, one stock step never
raises. -/
theorem process_stock_isOk (env : Env) (ticker : String) (st : LastPrice)
    (p : ℚ) (v : Option ℚ)
    (hfetch : env.get_stock_data ticker = Except.ok (some p, v)) :
    ∃ st' mopt, process_stock env ticker st = Except.ok (st', mopt) := by
  have hchange : ∃ c,
      price_change_of (some p) (dictGetD st ticker (some p)) = Except.ok c := by
    unfold price_change_of
    by_cases ht : truthy (dictGetD st ticker (some p)) = true
    · rw [if_pos ht]
      cases hl : dictGetD st ticker (some p) with
      | none =>
          rw [hl] at ht
          simp [truthy] at ht
      | some lp => exact ⟨|(p - lp) / lp|, rfl⟩
    · rw [if_neg ht]
      exact ⟨0, rfl⟩
  obtain ⟨c, hc⟩ := hchange
  have hps := process_stock_eq env ticker st (some p) v c hfetch hc
  by_cases hlt : c < 0.01
  · exact ⟨_, _, by rw [hps, if_pos hlt]⟩
  · exact ⟨_, _, by rw [hps, if_neg hlt]⟩

/-- Under succeeding fetches with a present price, the capped stocks pass
succeeds, the uncapped sweep succeeds, and — modulo the final slice — the
capped pass agrees with appending the sweep's qualifying messages. -/
theorem stocks_loop_take (env : Env) :
    ∀ (l : List String) (st : LastPrice) (messages : List Msg),
      (∀ t ∈ l, ∃ p v, env.get_stock_data t = Except.ok (some p, v)) →
      ∃ st₁ q st₂ out,
        stock_sweep env l st = Except.ok (st₁, q) ∧
        stocks_loop env l st messages = Except.ok (st₂, out) ∧
        out.take MAX_MESSAGES_PER_UPDATE =
          (messages ++ q).take MAX_MESSAGES_PER_UPDATE
  | [], st, messages, _ => by
      refine ⟨st, [], st, messages, ?_, ?_, by simp⟩
      · rw [stock_sweep]
      · rw [stocks_loop]
  | t :: rest, st, messages, hall => by
      obtain ⟨p, v, hf⟩ := hall t (List.mem_cons_self t rest)
      obtain ⟨st', mopt, hps⟩ := process_stock_isOk env t st p v hf
      have hrest : ∀ x ∈ rest, ∃ p v, env.get_stock_data x = Except.ok (some p, v) :=
        fun x hx => hall x (List.mem_cons_of_mem t hx)
      cases mopt with
      | none =>
          obtain ⟨st₁, q, st₂, out, hsw, hlp, htake⟩ :=
            stocks_loop_take env rest st' messages hrest
          refine ⟨st₁, q, st₂, out, ?_, ?_, htake⟩
          · rw [stock_sweep, hps]
            dsimp only
            rw [hsw]
            simp
          · rw [stocks_loop, hps]
            dsimp only
            exact hlp
      | some msg =>
          by_cases hcap : MAX_MESSAGES_PER_UPDATE ≤ (messages ++ [msg]).length
          · obtain ⟨st₁, q, st₂x, outx, hsw, hlpx, htakex⟩ :=
              stocks_loop_take env rest st' (messages ++ [msg]) hrest
            refine ⟨st₁, msg :: q, st', messages ++ [msg], ?_, ?_, ?_⟩
            · rw [stock_sweep, hps]
              dsimp only
              rw [hsw]
              simp
            · rw [stocks_loop, hps]
              dsimp only
              rw [if_pos hcap]
            · have hassoc : messages ++ (msg :: q) = (messages ++ [msg]) ++ q := by
                simp
              rw [hassoc, take_append_left MAX_MESSAGES_PER_UPDATE _ _ hcap]
          · obtain ⟨st₁, q, st₂, out, hsw, hlp, htake⟩ :=
              stocks_loop_take env rest st' (messages ++ [msg]) hrest
            refine ⟨st₁, msg :: q, st₂, out, ?_, ?_, ?_⟩
            · rw [stock_sweep, hps]
              dsimp only
              rw [hsw]
              simp
            · rw [stocks_loop, hps]
              dsimp only
              rw [if_neg hcap]
              exact hlp
            · rw [htake]
              simp [List.append_assoc]

/-! ## Claims about cap, ordering and the header (C7, C10) -/

/-- Claim C7: when every configured fetch succeeds with a present price, the
cycle succeeds, delivers at most `MAX_MESSAGES_PER_UPDATE` messages, and the
delivered batch is exactly the `MAX_MESSAGES_PER_UPDATE`-prefix of the header
followed by all qualifying instruments in configured iteration order (stocks,
then forex pairs, then commodities) — so when the cap truncates, precisely
the earliest-configured qualifying instruments are included. -/
theorem C7_message_cap (env : Env) (st : LastPrice)
    (h : ∀ t ∈ env.ALL_STOCKS, ∃ p v, env.get_stock_data t = Except.ok (some p, v)) :
    ∃ st₁ q sent,
      stock_sweep env env.ALL_STOCKS st = Except.ok (st₁, q) ∧
      sentOf (auto_signals_cycle env st) = some sent ∧
      sent.length ≤ MAX_MESSAGES_PER_UPDATE ∧
      sent = (Msg.header env.now ::
        (q ++ rateQual env.get_forex_rate (forex_msg env) FOREX_PAIRS ++
          rateQual env.get_commodity_rate (commodity_msg env) COMMODITIES)).take
        MAX_MESSAGES_PER_UPDATE := by
  obtain ⟨st₁, q, st₂, out, hsw, hlp, htake⟩ :=
    stocks_loop_take env env.ALL_STOCKS st [Msg.header env.now] h
  refine ⟨st₁, q,
    (rate_loop env.get_commodity_rate (commodity_msg env) COMMODITIES
      (rate_loop env.get_forex_rate (forex_msg env) FOREX_PAIRS out)).take
      MAX_MESSAGES_PER_UPDATE, hsw, ?_, ?_, ?_⟩
  · unfold auto_signals_cycle
    rw [hlp]
    rfl
  · rw [List.length_take]
    exact min_le_left _ _
  · rw [rate_loop_take env.get_commodity_rate (commodity_msg env) COMMODITIES
      (rate_loop env.get_forex_rate (forex_msg env) FOREX_PAIRS out)]
    have h2 := rate_loop_take env.get_forex_rate (forex_msg env) FOREX_PAIRS out
    have h3 := take_append_congr MAX_MESSAGES_PER_UPDATE
      (rate_loop env.get_forex_rate (forex_msg env) FOREX_PAIRS out)
      (out ++ rateQual env.get_forex_rate (forex_msg env) FOREX_PAIRS)
      (rateQual env.get_commodity_rate (commodity_msg env) COMMODITIES) h2
    rw [h3]
    have h4 := take_append_congr MAX_MESSAGES_PER_UPDATE out
      ([Msg.header env.now] ++ q)
      (rateQual env.get_forex_rate (forex_msg env) FOREX_PAIRS ++
        rateQual env.get_commodity_rate (commodity_msg env) COMMODITIES)
      (by simpa using htake)
    have h5 : out ++ rateQual env.get_forex_rate (forex_msg env) FOREX_PAIRS ++
        rateQual env.get_commodity_rate (commodity_msg env) COMMODITIES =
        out ++ (rateQual env.get_forex_rate (forex_msg env) FOREX_PAIRS ++
          rateQual env.get_commodity_rate (commodity_msg env) COMMODITIES) := by
      simp [List.append_assoc]
    rw [h5, h4]
    simp [List.append_assoc]

/-- The single configured stock of the C7 witness environment. -/
def envW7 : Env :=
  { baseEnv with
      ALL_STOCKS := ["A"]
      get_stock_data := fun _ => Except.ok (some 5, none) }

/-- Witness for C7 at a one-stock environment whose fetches all succeed. -/
theorem C7_message_cap_witness :
    (∀ t ∈ envW7.ALL_STOCKS, ∃ p v, envW7.get_stock_data t = Except.ok (some p, v)) ∧
    (∃ st₁ q sent,
      stock_sweep envW7 envW7.ALL_STOCKS emptyState = Except.ok (st₁, q) ∧
      sentOf (auto_signals_cycle envW7 emptyState) = some sent ∧
      sent.length ≤ MAX_MESSAGES_PER_UPDATE ∧
      sent = (Msg.header envW7.now ::
        (q ++ rateQual envW7.get_forex_rate (forex_msg envW7) FOREX_PAIRS ++
          rateQual envW7.get_commodity_rate (commodity_msg envW7) COMMODITIES)).take
        MAX_MESSAGES_PER_UPDATE) :=
  ⟨fun _ _ => ⟨5, none, rfl⟩,
    C7_message_cap envW7 emptyState (fun _ _ => ⟨5, none, rfl⟩)⟩

/-- Claim C10: every successful cycle's delivered batch starts with the header
message, and since the header counts toward the cap, at most
`MAX_MESSAGES_PER_UPDATE - 1` per-instrument messages follow it. -/
theorem C10_header_first (env : Env) (st : LastPrice) (sent : List Msg)
    (h : sentOf (auto_signals_cycle env st) = some sent) :
    ∃ rest, sent = Msg.header env.now :: rest ∧
      rest.length ≤ MAX_MESSAGES_PER_UPDATE - 1 := by
  unfold auto_signals_cycle at h
  cases hs : stocks_loop env env.ALL_STOCKS st [Msg.header env.now] with
  | error e =>
      rw [hs] at h
      cases h
  | ok r =>
      obtain ⟨st₂, out⟩ := r
      rw [hs] at h
      dsimp only [sentOf] at h
      obtain ⟨e0, hout⟩ :=
        stocks_loop_append_only env env.ALL_STOCKS st [Msg.header env.now] st₂ out hs
      obtain ⟨e1, hf⟩ :=
        rate_loop_append_only env.get_forex_rate (forex_msg env) FOREX_PAIRS out
      obtain ⟨e2, hc⟩ :=
        rate_loop_append_only env.get_commodity_rate (commodity_msg env) COMMODITIES
          (rate_loop env.get_forex_rate (forex_msg env) FOREX_PAIRS out)
      have hfinal : rate_loop env.get_commodity_rate (commodity_msg env) COMMODITIES
          (rate_loop env.get_forex_rate (forex_msg env) FOREX_PAIRS out) =
          Msg.header env.now :: (e0 ++ e1 ++ e2) := by
        rw [hc, hf, hout]
        simp
      rw [hfinal] at h
      injection h with h
      refine ⟨(e0 ++ e1 ++ e2).take (MAX_MESSAGES_PER_UPDATE - 1), ?_, ?_⟩
      · rw [← h]
        rfl
      · rw [List.length_take]
        exact min_le_left _ _

/-- Witness for C10 at the empty environment: the delivered batch is exactly
the header. -/
theorem C10_header_first_witness :
    sentOf (auto_signals_cycle baseEnv emptyState) = some [Msg.header "T"] ∧
    (∃ rest, [Msg.header "T"] = Msg.header baseEnv.now :: rest ∧
      rest.length ≤ MAX_MESSAGES_PER_UPDATE - 1) :=
  ⟨rfl, C10_header_first baseEnv emptyState [Msg.header "T"] rfl⟩

/-! ## Claims about the command handlers (C8) -/

/-- Counterexample for C8: invoking `/stock` with no argument makes
`stock_command` raise an unhandled `IndexError` (`context.args[0]` on an empty
list) — no reply at all is produced, in particular no plain-text error
message. -/
theorem C8_counterexample : stock_command baseEnv [] = Except.error () := rfl

/-- Claim C8 as amended: neither handler produces an error reply for a bad
instrument argument. `Bot.py`'s `stock_command` raises an unhandled
`IndexError` on a missing argument; `bot.py`'s `handle_stock` silently
substitutes the default ticker `"AAPL"` and answers like a normal query; and a
present argument token, however malformed, is uppercased and forwarded to the
data provider unvalidated — the handler fails exactly when the provider
raises. -/
theorem C8_no_error_reply (env : Env) (denv : DraftEnv) (a : String)
    (rest : List String) :
    stock_command env [] = Except.error () ∧
    handle_stock denv [] = ai_signal_for_stock denv "AAPL" ∧
    (stock_command env (a :: rest)).isOk = (env.get_stock_data a.toUpper).isOk := by
  refine ⟨rfl, rfl, ?_⟩
  rw [stock_command]
  cases hf : env.get_stock_data a.toUpper with
  | error e => rfl
  | ok pv => rfl

/-- The nine already-accumulated messages of the C6 cap witness. -/
def msgs9 : List Msg := List.replicate 9 (Msg.header "T")

/-- Witness for C6 as amended: the update half at a skipped instrument, and
the cap half at a one-instrument pass entered one message below the cap. -/
theorem C6_last_price_update_witness :
    process_stock baseEnv "A" emptyState =
      Except.ok (dictSet emptyState "A" none, none) ∧
    (∃ price volume, baseEnv.get_stock_data "A" = Except.ok (price, volume) ∧
      dictSet emptyState "A" none = dictSet emptyState "A" price) ∧
    msgs9.length < MAX_MESSAGES_PER_UPDATE ∧
    stocks_loop envC6 ["S1"] stateHundred msgs9 =
      Except.ok (dictSet stateHundred "S1" (some 200),
        msgs9 ++ [Msg.stock "S1" (some 200) (some 1) "AI" [] [] []]) ∧
    MAX_MESSAGES_PER_UPDATE ≤
      (msgs9 ++ [Msg.stock "S1" (some 200) (some 1) "AI" [] [] []]).length ∧
    stocks_loop envC6 (["S1"] ++ ["S2"]) stateHundred msgs9 =
      Except.ok (dictSet stateHundred "S1" (some 200),
        msgs9 ++ [Msg.stock "S1" (some 200) (some 1) "AI" [] [] []]) :=
  ⟨rfl,
    C6_last_price_update.1 baseEnv "A" emptyState (dictSet emptyState "A" none) none rfl,
    by decide, rfl, by decide,
    C6_last_price_update.2 envC6 ["S1"] ["S2"] stateHundred msgs9
      (dictSet stateHundred "S1" (some 200))
      (msgs9 ++ [Msg.stock "S1" (some 200) (some 1) "AI" [] [] []])
      (by decide) rfl (by decide)⟩

end OnlyStocksBot
